import Mathlib

/-!
Shallow embedding of the repository jakesherman/prefixrun.

The repository holds two near-identical modules:
  * src/runningshoes/runningshoes.py  (class RunningShoes) — embedded in
    namespace RS below;
  * src/prefixrun/prefixrun.py        (class PrefixRun)    — embedded in
    namespace PR below.

Python strings are modelled as Lean String values, operated on through
their List Char data so that everything reduces in the kernel.  Python
dicts are modelled as association lists with insert-or-update semantics.
The wall clock (time.time / time.strftime) is modelled as a Nat counter
held in the runner state: every read returns the counter and bumps it,
which keeps runs deterministic while preserving the order and number of
clock reads the source performs.  subprocess.call is modelled as an
oracle from the full command token list to a SpawnResult.
-/

/-- Python str.split(sep) for a one-character separator, over char lists.
Mirrors CPython semantics: splitting the empty string yields one empty
field, separators at the ends yield empty fields. -/
def splitOnChar (sep : Char) : List Char → List (List Char)
  | [] => [[]]
  | c :: rest =>
    let r := splitOnChar sep rest
    if c = sep then [] :: r
    else
      match r with
      | [] => [[c]]
      | g :: gs => (c :: g) :: gs

/-- Python str.strip(): drop whitespace from both ends. -/
def pyStrip (cs : List Char) : List Char :=
  ((cs.dropWhile (·.isWhitespace)).reverse.dropWhile (·.isWhitespace)).reverse

/-- Value of a nonempty all-digit char list; none otherwise. -/
def digitsToNat? (cs : List Char) : Option Nat :=
  if cs = [] then none
  else if cs.all (·.isDigit) then
    some (cs.foldl (fun n c => 10 * n + (c.toNat - 48)) 0)
  else none

/-- Python int(str) on a char list: optional surrounding whitespace, an
optional sign, then decimal digits.  (Underscore digit grouping, which
CPython also accepts, is not modelled; no filename in any claim uses it.) -/
def pyInt? (cs : List Char) : Option Int :=
  match pyStrip cs with
  | '-' :: rest => (digitsToNat? rest).map (fun n => -(n : Int))
  | '+' :: rest => (digitsToNat? rest).map (fun n => (n : Int))
  | t => (digitsToNat? t).map (fun n => (n : Int))

/-- Index of the last occurrence of a char in a char list. -/
def lastIndexOf (c : Char) : List Char → Option Nat
  | [] => none
  | a :: rest =>
    match lastIndexOf c rest with
    | some i => some (i + 1)
    | none => if a = c then some 0 else none

/-- Extension part of os.path.splitext(p) (posix): the suffix of p from
its last dot, provided that dot lies inside the basename and at least one
char of the basename before it is not a dot; empty string otherwise. -/
def splitext_ext (p : String) : String :=
  let cs := p.data
  match lastIndexOf '.' cs with
  | none => ""
  | some d =>
    let s : Nat :=
      match lastIndexOf '/' cs with
      | some i => i + 1
      | none => 0
    if s ≤ d ∧ ((cs.drop s).take (d - s)).any (fun c => c ≠ '.') then
      String.mk (cs.drop d)
    else ""

/-- Python string comparison: lexicographic by code point. -/
def charsLt : List Char → List Char → Bool
  | [], [] => false
  | [], _ :: _ => true
  | _ :: _, [] => false
  | a :: as, b :: bs => a < b || (a = b && charsLt as bs)

/-- Python list comparison of the two-element lists [order, name] built in
RunningShoes.identify_files: compare the integer first, tie-break on the
name string. -/
def pyPairLt (a b : Int × String) : Bool :=
  a.1 < b.1 || (a.1 = b.1 && charsLt a.2.data b.2.data)

/-- Stable insertion of an element into a sorted list: the new element
goes before the first existing element it is le-related to. -/
def insertSorted (le : α → α → Bool) (a : α) : List α → List α
  | [] => [a]
  | b :: bs => if le a b then a :: b :: bs else b :: insertSorted le a bs

/-- Python builtin sorted(): a stable ascending sort.  Implemented as a
stable insertion sort, which computes the same list as any stable sort by
the same key. -/
def pySorted (le : α → α → Bool) : List α → List α
  | [] => []
  | a :: as => insertSorted le a (pySorted le as)

/-- Python dict lookup d.get(k) / d[k] on an association-list model:
the binding of the first matching key (keys are unique in every dict the
embedded code builds, exactly as in a CPython dict). -/
def dictGet? (d : List (String × α)) (k : String) : Option α :=
  match d with
  | [] => none
  | p :: rest => if p.1 = k then some p.2 else dictGet? rest k

/-- Python dict update d[k] = v: replace the existing binding in place
when the key exists, append otherwise (CPython preserves insertion order
the same way). -/
def dictSet (d : List (String × α)) (k : String) (v : α) : List (String × α) :=
  match d with
  | [] => [(k, v)]
  | p :: rest => if p.1 = k then (k, v) :: rest else p :: dictSet rest k v

/-- Result of the subprocess.call collaborator: either the child ran and
returned an exit status, or the call itself raised. -/
inductive SpawnResult where
  | exit (code : Int)
  | raised
deriving DecidableEq

/-- Oracle describing what subprocess.call does for each full command. -/
def Outcomes := List String → SpawnResult

/-- Python exceptions the embedded code can raise. -/
inductive PyErr where
  /-- KeyError from self.extensions[file_extension]. -/
  | keyError (key : String)
  /-- Whatever exception subprocess.call raised. -/
  | spawnRaised
  /-- Exception: one or more files have the same integer prefix. -/
  | dupOrderError
  /-- ValueError from unpacking zip(*files_orders) when no file is eligible. -/
  | unpackError
deriving DecidableEq

namespace RS

/-- RunningShoes.default_extensions. -/
def default_extensions : List (String × List String) :=
  [(".hql", ["hive", "-f"]), (".py", ["python"]), (".R", ["Rscript"]),
   (".scala", ["scala"]), (".sh", ["bash"])]

/-- RunningShoes.ensure_trailing_slash: append a slash when the last
character is not a slash.  (On the empty string CPython would raise
IndexError at directory[-1]; here the getLast? of the empty list is none,
so a slash is appended; the claims only concern nonempty directories.) -/
def ensure_trailing_slash (directory : String) : String :=
  if directory.data.getLast? ≠ some '/' then directory ++ "/" else directory

/-- RunningShoes.should_we_run_this_file: split the name on hyphens; at
least two parts are required and the first must parse as a Python int.
The Python function returns False or the pair (True, order); it is
modelled as an Option of the order. -/
def should_we_run_this_file (file_name : String) : Option Int :=
  let parts := splitOnChar '-' file_name.data
  if parts.length < 2 then none
  else pyInt? (parts.headD [])

/-- RunningShoes.identify_files, as a function of the directory listing
returned by os.listdir.  The source builds the [order, name] pairs of the
eligible files, sorts them, unpacks with zip (which raises ValueError on
an empty collection), rejects duplicate orders, and returns the names. -/
def identify_files (listing : List String) : Except PyErr (List String) :=
  let files_orders :=
    pySorted (fun a b => !(pyPairLt b a))
      ((listing.filter (fun f => (should_we_run_this_file f).isSome)).map
        (fun f => ((should_we_run_this_file f).getD 0, f)))
  match files_orders with
  | [] => Except.error PyErr.unpackError
  | _ =>
    let orders := files_orders.map Prod.fst
    if orders.length ≠ orders.eraseDups.length then Except.error PyErr.dupOrderError
    else Except.ok (files_orders.map Prod.snd)

/-- RunningShoes.run_file: resolve the command from the file extension
(KeyError when absent from the map) and call it.  Returns the list of
commands actually handed to subprocess.call (empty or a singleton) and
the exception raised, if any. -/
def run_file (exts : List (String × List String)) (out : Outcomes)
    (file_name : String) : List (List String) × Option PyErr :=
  match dictGet? exts (splitext_ext file_name) with
  | none => ([], some (PyErr.keyError (splitext_ext file_name)))
  | some cmd =>
    let call := cmd ++ [file_name]
    match out call with
    | SpawnResult.exit _ => ([call], none)
    | SpawnResult.raised => ([call], some PyErr.spawnRaised)

/-- Per-file bookkeeping dict self.file_data['info'][file].  Fields not
yet written are none.  Clock readings are the Nat counter values; elapsed
is the (endRead - startRead) / 60 of the two time.time() readings. -/
structure RunRecord where
  ran : Bool
  start_time : Nat
  end_time : Option Nat := none
  elapsed : Option ℚ := none

/-- State of a RunningShoes instance (plus the modelled clock counter). -/
structure RSState where
  directory : String
  files : List String
  extensions : List (String × List String)
  info : List (String × RunRecord)
  clock : Nat

/-- Outcome of run_files: the final info dict, clock, every command that
was handed to subprocess.call, and the exception that propagated. -/
structure RunResult where
  info : List (String × RunRecord)
  clock : Nat
  spawned : List (List String)
  err : Option PyErr

/-- Loop body of RunningShoes.run_files.  Each iteration reads the clock
four times in source order (time.time, strftime, then after the call
strftime, time.time — the same four reads on the success and the except
path), creates the record before the try, finalizes it afterwards, and
re-raises on failure. -/
def run_files_go (dir : String) (exts : List (String × List String))
    (out : Outcomes) : List String → List (String × RunRecord) → Nat →
    List (List String) → RunResult
  | [], info, clock, spawned => ⟨info, clock, spawned, none⟩
  | f :: rest, info, clock, spawned =>
    let start := clock
    let start_time := clock + 1
    let info1 := dictSet info f ⟨true, start_time, none, none⟩
    let (sp, e) := run_file exts out (dir ++ f)
    let end_time := clock + 2
    let now := clock + 3
    let elapsed : ℚ := (((now : Nat) : ℚ) - ((start : Nat) : ℚ)) / 60
    let info2 := dictSet info1 f ⟨e.isNone, start_time, some end_time, some elapsed⟩
    match e with
    | some err => ⟨info2, clock + 4, spawned ++ sp, some err⟩
    | none => run_files_go dir exts out rest info2 (clock + 4) (spawned ++ sp)

/-- RunningShoes.run_files. -/
def run_files (s : RSState) (out : Outcomes) : RunResult :=
  run_files_go s.directory s.extensions out s.files s.info s.clock []

/-- One row of format_file_data: [order, name, start, end, elapsed,
status].  The NA cells of a never-attempted file are modelled as none in
the three value columns and the string NA in the status column. -/
structure Row where
  order : Nat
  name : String
  start_time : Option Nat
  end_time : Option Nat
  elapsed : Option ℚ
  status : String

/-- Row built for one file, from its record when one exists. -/
def mkRow (order : Nat) (f : String) : Option RunRecord → Row
  | some r =>
    ⟨order, f, some r.start_time, r.end_time, r.elapsed,
      if r.ran then "Success" else "Failure"⟩
  | none => ⟨order, f, none, none, none, "NA"⟩

/-- Loop of RunningShoes.format_file_data, carrying the 1-based counter
of enumerate(self.files, start = 1). -/
def format_file_data_go (info : List (String × RunRecord)) (order : Nat) :
    List String → List Row
  | [] => []
  | f :: rest => mkRow order f (dictGet? info f) :: format_file_data_go info (order + 1) rest

/-- RunningShoes.format_file_data. -/
def format_file_data (files : List String) (info : List (String × RunRecord)) :
    List Row :=
  format_file_data_go info 1 files

/-- RunningShoes.run: run the files; the finally block prints the table
built from the records whatever happened, so the rows are produced
alongside the propagated result. -/
def run (s : RSState) (out : Outcomes) : List Row × RunResult :=
  let r := run_files s out
  (format_file_data s.files r.info, r)

/-- RunningShoes.__init__ as a function of the directory string, the
directory listing, and the custom_extensions items: normalize the
directory, discover the files (which can raise), merge the extension
dicts (custom entries overwrite defaults key by key), start with no
records and the clock at zero. -/
def mkRunningShoes (directory : String) (listing : List String)
    (custom : List (String × List String)) : Except PyErr RSState :=
  match identify_files listing with
  | Except.error e => Except.error e
  | Except.ok files =>
    Except.ok
      { directory := ensure_trailing_slash directory
        files := files
        extensions := custom.foldl (fun d kv => dictSet d kv.1 kv.2) default_extensions
        info := []
        clock := 0 }

/-- The extension-map merge performed in __init__, on its own. -/
def mergeExtensions (custom : List (String × List String)) :
    List (String × List String) :=
  custom.foldl (fun d kv => dictSet d kv.1 kv.2) default_extensions

end RS

namespace PR

/-- PrefixRun.default_extensions (textually identical to the
RunningShoes one). -/
def default_extensions : List (String × List String) :=
  [(".hql", ["hive", "-f"]), (".py", ["python"]), (".R", ["Rscript"]),
   (".scala", ["scala"]), (".sh", ["bash"])]

/-- PrefixRun.should_we_run_this_file (textually identical to the
RunningShoes one). -/
def should_we_run_this_file (file_name : String) : Option Int :=
  let parts := splitOnChar '-' file_name.data
  if parts.length < 2 then none
  else pyInt? (parts.headD [])

/-- One row of self.file_data as built by PrefixRun.identify_files:
[order, name, NA, NA, NA, No].  The source takes element 0 of the pair
returned by should_we_run_this_file — the boolean True — as the order,
so the order column holds a Bool. -/
structure PRRow where
  order : Bool
  name : String
  start_time : String := "NA"
  end_time : String := "NA"
  elapsed : String := "NA"
  ran : String := "No"
deriving DecidableEq

/-- PrefixRun.identify_files as a function of the directory listing.  The
source pairs each eligible file with element 0 of the
should_we_run_this_file result (the boolean True, not the parsed order),
checks those booleans for duplicates, then sorts by them (a stable sort
by a constant key, hence the listing order) and builds the NA rows. -/
def identify_files (listing : List String) : Except PyErr (List PRRow) :=
  let files_orders :=
    (listing.filter (fun f => (should_we_run_this_file f).isSome)).map
      (fun f => (true, f))
  let orders := files_orders.map Prod.fst
  if orders.length ≠ orders.eraseDups.length then Except.error PyErr.dupOrderError
  else
    Except.ok
      ((pySorted (fun a b => !(decide (b.1 < a.1)))
          files_orders).map (fun p => { order := p.1, name := p.2 }))

/-- PrefixRun.run_file (textually identical to RunningShoes.run_file). -/
def run_file (exts : List (String × List String)) (out : Outcomes)
    (file_name : String) : List (List String) × Option PyErr :=
  match dictGet? exts (splitext_ext file_name) with
  | none => ([], some (PyErr.keyError (splitext_ext file_name)))
  | some cmd =>
    let call := cmd ++ [file_name]
    match out call with
    | SpawnResult.exit _ => ([call], none)
    | SpawnResult.raised => ([call], some PyErr.spawnRaised)

/-- State of a PrefixRun instance.  file_data is the empty list until
identify_files stores its rows (the source only creates the attribute
there). -/
structure PRState where
  directory : String
  extensions : List (String × List String)
  file_data : List PRRow

/-- Outcome of PrefixRun.run_files: the file_data (which the source never
touches: its update statement is commented out), the commands handed to
subprocess.call, and the propagated exception — always none, because the
bare except only flips the local ran_successfully flag. -/
structure PRRunResult where
  file_data : List PRRow
  spawned : List (List String)
  err : Option PyErr

/-- Loop of PrefixRun.run_files: each file is invoked with its bare name
(no directory is prepended); any exception is swallowed and the loop
breaks after the failing file.  The clock readings the source takes in
the finally block are computed into locals that are never stored, so they
are not modelled. -/
def run_files_go (exts : List (String × List String)) (out : Outcomes) :
    List String → List (List String) → List (List String)
  | [], spawned => spawned
  | f :: rest, spawned =>
    let (sp, e) := run_file exts out f
    match e with
    | some _ => spawned ++ sp
    | none => run_files_go exts out rest (spawned ++ sp)

/-- PrefixRun.run_files. -/
def run_files (s : PRState) (out : Outcomes) : PRRunResult :=
  ⟨s.file_data, run_files_go s.extensions out (s.file_data.map PRRow.name) [], none⟩

/-- PrefixRun.__init__: the directory is stored exactly as given (no
trailing-slash normalization exists in this class) and the extension
dicts are merged the same way as in RunningShoes. -/
def mkPrefixRun (directory : String) (custom : List (String × List String)) :
    PRState :=
  { directory := directory
    extensions := custom.foldl (fun d kv => dictSet d kv.1 kv.2) default_extensions
    file_data := [] }

end PR

/-! ### Helper notions used to state and prove the claims -/

namespace RS

/-- The finalized record run_files writes for a file whose processing
started at clock value base, with outcome ok.  Its fields are literally
the values the loop body computes. -/
def expectedRecord (base : Nat) (ok : Bool) : RunRecord :=
  ⟨ok, base + 1, some (base + 2), some ((((base + 3 : Nat) : ℚ) - ((base : Nat) : ℚ)) / 60)⟩

/-- Records written by a fully successful pass over a list of files,
starting from a given info dict and clock.  Matches what run_files_go
does on files whose invocation does not raise. -/
def addRecords (info : List (String × RunRecord)) (clock : Nat) :
    List String → List (String × RunRecord)
  | [] => info
  | f :: rest =>
    addRecords
      (dictSet (dictSet info f ⟨true, clock + 1, none, none⟩) f (expectedRecord clock true))
      (clock + 4) rest

/-- The state of a RunningShoes instance after a call to run_files: the
file list, directory and extensions are untouched (nothing re-scans),
only the records and the clock move. -/
def stepState (s : RSState) (r : RunResult) : RSState :=
  { s with info := r.info, clock := r.clock }

end RS

/-! ### Dictionary lemmas -/

theorem dictGet?_dictSet {α : Type} (d : List (String × α)) (k k' : String) (v : α) :
    dictGet? (dictSet d k v) k' = if k' = k then some v else dictGet? d k' := by
  induction d with
  | nil =>
    by_cases h : k = k'
    · subst h
      simp [dictGet?, dictSet]
    · have h' : ¬ k' = k := fun hh => h hh.symm
      simp [dictGet?, dictSet, h, h']
  | cons p rest ih =>
    by_cases h1 : p.1 = k
    · by_cases h2 : k = k'
      · subst h2
        simp [dictSet, dictGet?, h1]
      · have h2' : ¬ k' = k := fun hh => h2 hh.symm
        have h1' : ¬ p.1 = k' := by rw [h1]; exact h2
        simp [dictSet, dictGet?, h1, h2, h2', h1']
    · by_cases h2 : p.1 = k'
      · have h3 : ¬ k' = k := fun hh => h1 (hh ▸ h2)
        simp [dictSet, dictGet?, h1, h2, h3]
      · simp [dictSet, dictGet?, h1, h2, ih]

theorem dictGet?_dictSet_self {α : Type} (d : List (String × α)) (k : String) (v : α) :
    dictGet? (dictSet d k v) k = some v := by
  simp [dictGet?_dictSet]

theorem dictGet?_dictSet_ne {α : Type} (d : List (String × α)) {k k' : String} (v : α)
    (h : k' ≠ k) : dictGet? (dictSet d k v) k' = dictGet? d k' := by
  simp [dictGet?_dictSet, h]

/-! ### Characterization of the run_files loop -/

namespace RS

theorem run_files_go_nil (dir : String) (exts : List (String × List String))
    (out : Outcomes) (info : List (String × RunRecord)) (clock : Nat)
    (spawned : List (List String)) :
    run_files_go dir exts out [] info clock spawned = ⟨info, clock, spawned, none⟩ := rfl

theorem run_files_go_cons_ok (dir : String) (exts : List (String × List String))
    (out : Outcomes) (f : String) (l : List String) (info : List (String × RunRecord))
    (clock : Nat) (spawned : List (List String))
    (h : (run_file exts out (dir ++ f)).2 = none) :
    run_files_go dir exts out (f :: l) info clock spawned =
      run_files_go dir exts out l
        (dictSet (dictSet info f ⟨true, clock + 1, none, none⟩) f (expectedRecord clock true))
        (clock + 4) (spawned ++ (run_file exts out (dir ++ f)).1) := by
  simp only [run_files_go]
  rw [show run_file exts out (dir ++ f) =
    ((run_file exts out (dir ++ f)).1, (run_file exts out (dir ++ f)).2) from rfl, h]
  rfl

theorem run_files_go_cons_err (dir : String) (exts : List (String × List String))
    (out : Outcomes) (f : String) (l : List String) (info : List (String × RunRecord))
    (clock : Nat) (spawned : List (List String)) (e : PyErr)
    (h : (run_file exts out (dir ++ f)).2 = some e) :
    run_files_go dir exts out (f :: l) info clock spawned =
      ⟨dictSet (dictSet info f ⟨true, clock + 1, none, none⟩) f (expectedRecord clock false),
       clock + 4, spawned ++ (run_file exts out (dir ++ f)).1, some e⟩ := by
  simp only [run_files_go]
  rw [show run_file exts out (dir ++ f) =
    ((run_file exts out (dir ++ f)).1, (run_file exts out (dir ++ f)).2) from rfl, h]
  rfl

end RS

namespace RS

theorem run_files_go_append_ok (dir : String) (exts : List (String × List String))
    (out : Outcomes) (A rest : List String) (info : List (String × RunRecord))
    (clock : Nat) (spawned : List (List String))
    (hA : ∀ f ∈ A, (run_file exts out (dir ++ f)).2 = none) :
    run_files_go dir exts out (A ++ rest) info clock spawned =
      run_files_go dir exts out rest (addRecords info clock A) (clock + 4 * A.length)
        (spawned ++ A.flatMap (fun f => (run_file exts out (dir ++ f)).1)) := by
  induction A generalizing info clock spawned with
  | nil => simp [addRecords]
  | cons f A ih =>
    rw [List.cons_append,
        run_files_go_cons_ok dir exts out f (A ++ rest) info clock spawned
          (hA f (List.mem_cons_self f A)),
        ih _ _ _ (fun g hg => hA g (List.mem_cons_of_mem f hg))]
    have harith : clock + 4 + 4 * A.length = clock + 4 * (f :: A).length := by
      simp only [List.length_cons]
      ring
    rw [harith]
    simp [addRecords, List.append_assoc]

theorem run_files_go_info_notMem (dir : String) (exts : List (String × List String))
    (out : Outcomes) (l : List String) (info : List (String × RunRecord))
    (clock : Nat) (spawned : List (List String)) (g : String) (hg : g ∉ l) :
    dictGet? (run_files_go dir exts out l info clock spawned).info g = dictGet? info g := by
  induction l generalizing info clock spawned with
  | nil => rfl
  | cons f rest ih =>
    have hgf : g ≠ f := fun h => hg (h ▸ List.mem_cons_self f rest)
    have hgrest : g ∉ rest := fun h => hg (List.mem_cons_of_mem f h)
    cases he : (run_file exts out (dir ++ f)).2 with
    | none =>
      rw [run_files_go_cons_ok dir exts out f rest info clock spawned he,
          ih _ _ _ hgrest, dictGet?_dictSet_ne _ _ hgf, dictGet?_dictSet_ne _ _ hgf]
    | some e =>
      rw [run_files_go_cons_err dir exts out f rest info clock spawned e he]
      exact (dictGet?_dictSet_ne _ _ hgf).trans (dictGet?_dictSet_ne _ _ hgf)

theorem addRecords_append (info : List (String × RunRecord)) (clock : Nat)
    (A B : List String) :
    addRecords info clock (A ++ B) =
      addRecords (addRecords info clock A) (clock + 4 * A.length) B := by
  induction A generalizing info clock with
  | nil => simp [addRecords]
  | cons f A ih =>
    simp only [List.cons_append, addRecords, List.append_eq]
    rw [ih]
    congr 1
    simp only [List.length_cons]
    ring

theorem dictGet?_addRecords_notMem (info : List (String × RunRecord)) (clock : Nat)
    (A : List String) (g : String) (hg : g ∉ A) :
    dictGet? (addRecords info clock A) g = dictGet? info g := by
  induction A generalizing info clock with
  | nil => rfl
  | cons f A ih =>
    have hgf : g ≠ f := fun h => hg (h ▸ List.mem_cons_self f A)
    have hgA : g ∉ A := fun h => hg (List.mem_cons_of_mem f h)
    simp only [addRecords]
    rw [ih _ _ hgA, dictGet?_dictSet_ne _ _ hgf, dictGet?_dictSet_ne _ _ hgf]

theorem dictGet?_addRecords_mem (info : List (String × RunRecord)) (clock : Nat)
    (B C : List String) (g : String) (hg : g ∉ C) :
    dictGet? (addRecords info clock (B ++ g :: C)) g =
      some (expectedRecord (clock + 4 * B.length) true) := by
  rw [addRecords_append]
  simp only [addRecords]
  rw [dictGet?_addRecords_notMem _ _ _ _ hg, dictGet?_dictSet_self]

/-- Full description of run_files when no invocation raises: every file
is invoked in order, every record is written, nothing propagates. -/
theorem run_files_char_ok (s : RSState) (out : Outcomes)
    (hok : ∀ f ∈ s.files, (run_file s.extensions out (s.directory ++ f)).2 = none) :
    run_files s out =
      ⟨addRecords s.info s.clock s.files, s.clock + 4 * s.files.length,
       s.files.flatMap (fun f => (run_file s.extensions out (s.directory ++ f)).1), none⟩ := by
  rw [run_files, show s.files = s.files ++ [] from (List.append_nil _).symm,
      run_files_go_append_ok s.directory s.extensions out s.files [] s.info s.clock [] hok,
      run_files_go_nil]
  simp

/-- Full description of run_files when the invocations of the files in A
succeed and the invocation of b raises e: the loop stops at b, b's record
is finalized as a failure, and e propagates. -/
theorem run_files_char_err (s : RSState) (out : Outcomes) (A : List String) (b : String)
    (B : List String) (e : PyErr) (hfiles : s.files = A ++ b :: B)
    (hok : ∀ f ∈ A, (run_file s.extensions out (s.directory ++ f)).2 = none)
    (hbad : (run_file s.extensions out (s.directory ++ b)).2 = some e) :
    run_files s out =
      ⟨dictSet (dictSet (addRecords s.info s.clock A) b
          ⟨true, s.clock + 4 * A.length + 1, none, none⟩)
         b (expectedRecord (s.clock + 4 * A.length) false),
       s.clock + 4 * A.length + 4,
       A.flatMap (fun f => (run_file s.extensions out (s.directory ++ f)).1)
         ++ (run_file s.extensions out (s.directory ++ b)).1,
       some e⟩ := by
  rw [run_files, hfiles,
      run_files_go_append_ok s.directory s.extensions out A (b :: B) s.info s.clock [] hok,
      run_files_go_cons_err s.directory s.extensions out b B _ _ _ e hbad]
  simp

end RS

namespace RS

/-- Observable shape of a report row: the status string and whether each
of the three value columns holds a value (a false renders as NA). -/
def rowStat (r : Row) : String × Bool × Bool × Bool :=
  (r.status, r.start_time.isSome, r.end_time.isSome, r.elapsed.isSome)

theorem format_go_map_rowStat (info : List (String × RunRecord)) (o : Nat)
    (files : List String) :
    (format_file_data_go info o files).map rowStat =
      files.map (fun f => rowStat (mkRow 0 f (dictGet? info f))) := by
  induction files generalizing o with
  | nil => rfl
  | cons f rest ih =>
    cases h : dictGet? info f <;>
      simp [format_file_data_go, mkRow, rowStat, h, ih]

theorem format_go_map_order (info : List (String × RunRecord)) (o : Nat)
    (files : List String) :
    (format_file_data_go info o files).map Row.order = List.range' o files.length := by
  induction files generalizing o with
  | nil => rfl
  | cons f rest ih =>
    cases h : dictGet? info f <;>
      simp [format_file_data_go, mkRow, List.range'_succ, h, ih]

theorem format_map_rowStat (info : List (String × RunRecord)) (files : List String) :
    (format_file_data files info).map rowStat =
      files.map (fun f => rowStat (mkRow 0 f (dictGet? info f))) :=
  format_go_map_rowStat info 1 files

theorem format_map_order (info : List (String × RunRecord)) (files : List String) :
    (format_file_data files info).map Row.order = List.range' 1 files.length :=
  format_go_map_order info 1 files

theorem rowStat_some (f : String) (c : Nat) (ok : Bool) :
    rowStat (mkRow 0 f (some (expectedRecord c ok))) =
      (if ok then "Success" else "Failure", true, true, true) := by
  cases ok <;> rfl

theorem rowStat_none (f : String) :
    rowStat (mkRow 0 f none) = ("NA", false, false, false) := rfl

/-- Record state after a run that succeeds on every file of A, then has
the invocation of b raise e: every file of A has a success record, b has
a finalized failure record, and everything else is untouched. -/
theorem final_info_char (s : RSState) (out : Outcomes) (A : List String) (b : String)
    (B : List String) (e : PyErr) (hfiles : s.files = A ++ b :: B)
    (hnd : s.files.Nodup) (hinfo : s.info = [])
    (hok : ∀ f ∈ A, (run_file s.extensions out (s.directory ++ f)).2 = none)
    (hbad : (run_file s.extensions out (s.directory ++ b)).2 = some e) :
    (∀ f ∈ A, ∃ c, dictGet? (run_files s out).info f = some (expectedRecord c true))
    ∧ dictGet? (run_files s out).info b =
        some (expectedRecord (s.clock + 4 * A.length) false)
    ∧ (∀ g, g ∉ A → g ≠ b → dictGet? (run_files s out).info g = none) := by
  have hnd' := hfiles ▸ hnd
  have hAnd : A.Nodup := (List.nodup_append.mp hnd').1
  have hdisj : A.Disjoint (b :: B) := (List.nodup_append.mp hnd').2.2
  rw [run_files_char_err s out A b B e hfiles hok hbad]
  refine ⟨?_, ?_, ?_⟩
  · intro f hf
    have hfb : f ≠ b := fun h => hdisj hf (h ▸ List.mem_cons_self b B)
    obtain ⟨A1, A2, hA⟩ := List.append_of_mem hf
    have hfA2 : f ∉ A2 := by
      have : (f :: A2).Nodup := (List.nodup_append.mp (hA ▸ hAnd)).2.1
      exact (List.nodup_cons.mp this).1
    refine ⟨s.clock + 4 * A1.length, ?_⟩
    rw [dictGet?_dictSet_ne _ _ hfb, dictGet?_dictSet_ne _ _ hfb, hinfo, hA,
        dictGet?_addRecords_mem [] s.clock A1 A2 f hfA2]
  · rw [dictGet?_dictSet_self]
  · intro g hgA hgb
    rw [dictGet?_dictSet_ne _ _ hgb, dictGet?_dictSet_ne _ _ hgb, hinfo,
        dictGet?_addRecords_notMem _ _ _ _ hgA]
    rfl

/-- Record state after a run in which no invocation raises: every file
has a success record, everything else is untouched. -/
theorem final_info_char_ok (s : RSState) (out : Outcomes)
    (hnd : s.files.Nodup) (hinfo : s.info = [])
    (hok : ∀ f ∈ s.files, (run_file s.extensions out (s.directory ++ f)).2 = none) :
    (∀ f ∈ s.files, ∃ c, dictGet? (run_files s out).info f = some (expectedRecord c true))
    ∧ (∀ g, g ∉ s.files → dictGet? (run_files s out).info g = none) := by
  rw [run_files_char_ok s out hok]
  constructor
  · intro f hf
    obtain ⟨A1, A2, hA⟩ := List.append_of_mem hf
    have hfA2 : f ∉ A2 := by
      have : (f :: A2).Nodup := (List.nodup_append.mp (hA ▸ hnd)).2.1
      exact (List.nodup_cons.mp this).1
    exact ⟨s.clock + 4 * A1.length, by rw [hinfo, hA, dictGet?_addRecords_mem [] s.clock A1 A2 f hfA2]⟩
  · intro g hg
    rw [hinfo, dictGet?_addRecords_notMem _ _ _ _ hg]
    rfl

end RS

/-! ### Fixtures for witnesses and counterexamples -/

/-- Oracle under which the invocation of d/2-b.py raises and every other
call returns exit status 0. -/
def outFail2 : Outcomes := fun c =>
  if c = ["python", "d/2-b.py"] then SpawnResult.raised else SpawnResult.exit 0

/-- Oracle under which every call returns exit status 0. -/
def outExit0 : Outcomes := fun _ => SpawnResult.exit 0

/-- Oracle under which every call returns the nonzero exit status 1. -/
def outExit1 : Outcomes := fun _ => SpawnResult.exit 1

/-- Oracle under which every call raises. -/
def outRaiseAll : Outcomes := fun _ => SpawnResult.raised

/-- A freshly constructed RunningShoes over three discovered files. -/
def sFail2 : RS.RSState :=
  ⟨"d/", ["1-a.py", "2-b.py", "3-c.sh"], RS.default_extensions, [], 0⟩

/-- A freshly constructed RunningShoes over two discovered files. -/
def sTwo : RS.RSState :=
  ⟨"d/", ["1-a.py", "2-b.sh"], RS.default_extensions, [], 0⟩

/-- A freshly constructed RunningShoes over one file with an unmapped
extension. -/
def sXyz : RS.RSState :=
  ⟨"d/", ["1-a.xyz"], RS.default_extensions, [], 0⟩

/-- A PrefixRun whose file_data holds the single row its identify_files
builds for the listing containing just 1-a.py. -/
def pFail : PR.PRState :=
  ⟨"d", PR.default_extensions, [⟨true, "1-a.py", "NA", "NA", "NA", "No"⟩]⟩

/-! ### The claims -/

/-- C1: on the claim's own listing, RunningShoes.identify_files keeps
exactly the eligible files — hyphenated names whose first segment parses
as an integer — sorted ascending by that integer, and drops the rest; but
PrefixRun.identify_files, which the claim also names, raises the
duplicate-prefix exception on that very listing, because its code pairs
each file with element 0 of the should_we_run_this_file result (the
boolean True) instead of element 1 (the parsed order), so any two
eligible files count as duplicates.  The claim is therefore right about
the intended behaviour and PrefixRun.identify_files is the slip. -/
theorem claim_C1_discovery_order :
    RS.identify_files ["10-a.sh", "2-b.py", "1-c.py"]
        = Except.ok ["1-c.py", "2-b.py", "10-a.sh"]
      ∧ RS.identify_files
          ["10-a.sh", "2-b.py", "1-c.py", "myproject.py", "random.txt", "image.jpeg"]
        = Except.ok ["1-c.py", "2-b.py", "10-a.sh"]
      ∧ PR.identify_files ["10-a.sh", "2-b.py", "1-c.py"]
        = Except.error PyErr.dupOrderError :=
  ⟨rfl, rfl, rfl⟩

/-- C3: RunningShoes.identify_files raises on two eligible files whose
differently written name parts parse to the same integer 2, and accepts
distinct parsed orders; but PrefixRun.identify_files raises the very same
duplicate-prefix exception on the distinct orders 1 and 3 (it compares
the constant booleans, not the orders), and RunningShoes.identify_files
raises a ValueError — not nothing — on a listing whose (vacuously
duplicate-free) set of eligible files is empty, because unpacking
zip(*files_orders) of an empty collection fails. -/
theorem claim_C3_duplicate_validation :
    RS.identify_files ["2-b.py", "02-c.sh"] = Except.error PyErr.dupOrderError
      ∧ RS.identify_files ["1-a.py", "3-b.sh"] = Except.ok ["1-a.py", "3-b.sh"]
      ∧ PR.identify_files ["1-a.py", "3-b.sh"] = Except.error PyErr.dupOrderError
      ∧ RS.identify_files ["notes.txt"] = Except.error PyErr.unpackError :=
  ⟨rfl, rfl, rfl, rfl⟩

/-- C2: in a fresh RunningShoes whose discovered files are A ++ b :: B,
when every invocation over A returns and the invocation of b raises, the
run spawns exactly the commands of A and of b and nothing of B, the
exception propagates, and the report rows show Success for each file of
A, Failure for b, and NA in the time, elapsed and status columns for
every file of B. -/
theorem claim_C2_halt_on_failure (s : RS.RSState) (out : Outcomes)
    (A : List String) (b : String) (B : List String)
    (hfiles : s.files = A ++ b :: B) (hinfo : s.info = []) (hnd : s.files.Nodup)
    (hok : ∀ f ∈ A, (RS.run_file s.extensions out (s.directory ++ f)).2 = none)
    (hbad : (RS.run_file s.extensions out (s.directory ++ b)).2 = some PyErr.spawnRaised) :
    (RS.run_files s out).spawned =
        (A ++ [b]).flatMap (fun f => (RS.run_file s.extensions out (s.directory ++ f)).1)
      ∧ (RS.run_files s out).err = some PyErr.spawnRaised
      ∧ ((RS.run s out).1).map RS.rowStat =
          A.map (fun _ => ("Success", true, true, true))
            ++ ("Failure", true, true, true)
            :: B.map (fun _ => ("NA", false, false, false)) := by
  have hnd' := hfiles ▸ hnd
  have hdisj : A.Disjoint (b :: B) := (List.nodup_append.mp hnd').2.2
  have hbB : b ∉ B := (List.nodup_cons.mp (List.nodup_append.mp hnd').2.1).1
  obtain ⟨hmem, hbrec, hrest⟩ :=
    RS.final_info_char s out A b B PyErr.spawnRaised hfiles hnd hinfo hok hbad
  refine ⟨?_, ?_, ?_⟩
  · rw [RS.run_files_char_err s out A b B PyErr.spawnRaised hfiles hok hbad]
    simp
  · rw [RS.run_files_char_err s out A b B PyErr.spawnRaised hfiles hok hbad]
  · show (RS.format_file_data s.files (RS.run_files s out).info).map RS.rowStat = _
    rw [RS.format_map_rowStat, hfiles, List.map_append, List.map_cons]
    congr 1
    · refine List.map_congr_left (fun f hf => ?_)
      obtain ⟨c, hc⟩ := hmem f hf
      rw [show s.files = A ++ b :: B from hfiles] at *
      rw [hc, RS.rowStat_some]
      rfl
    · congr 1
      · rw [hbrec, RS.rowStat_some]
        rfl
      · refine List.map_congr_left (fun g hg => ?_)
        have hgb : g ≠ b := fun h => hbB (h ▸ hg)
        have hgA : g ∉ A := fun h => hdisj h (List.mem_cons_of_mem b hg)
        rw [hrest g hgA hgb, RS.rowStat_none]

/-- Witness for C2 at a concrete three-file run whose second invocation
raises. -/
theorem claim_C2_halt_on_failure_witness :
    (RS.run_files sFail2 outFail2).err = some PyErr.spawnRaised
      ∧ ((RS.run sFail2 outFail2).1).map RS.rowStat =
          [("Success", true, true, true), ("Failure", true, true, true),
           ("NA", false, false, false)] := by
  have h := claim_C2_halt_on_failure sFail2 outFail2 ["1-a.py"] "2-b.py" ["3-c.sh"]
    rfl rfl (by decide)
    (fun f hf => by rw [List.mem_singleton] at hf; subst hf; rfl)
    rfl
  exact ⟨h.2.1, h.2.2.trans rfl⟩

/-- C4, counterexample: a fresh RunningShoes over the single file
1-a.xyz, whose extension is unmapped.  The run raises KeyError before any
process is spawned and halts — that much the claim gets right — but a
RunRecord IS created and finalized for the file (ran = false), and its
report row shows Failure, not the NA of a not-attempted file, because
run_files writes the record before the try block and the bare except
finalizes it.  The claim's assertion that no record is created and that
the file renders as not-attempted is false. -/
theorem claim_C4_unknown_extension_cex :
    RS.mkRunningShoes "d" ["1-a.xyz"] [] = Except.ok sXyz
      ∧ (RS.run_files sXyz outExit0).spawned = []
      ∧ (RS.run_files sXyz outExit0).err = some (PyErr.keyError ".xyz")
      ∧ (dictGet? (RS.run_files sXyz outExit0).info "1-a.xyz").map RS.RunRecord.ran
          = some false
      ∧ ((RS.run sXyz outExit0).1).map RS.Row.status = ["Failure"] :=
  ⟨rfl, rfl, rfl, rfl, rfl⟩

/-- C4 as amended: in a fresh RunningShoes whose discovered files are
A ++ b :: B, when every invocation over A returns and b's extension is
absent from the merged map, the run raises KeyError before any process is
spawned for b (only A's commands are spawned), the loop halts at b, and a
RunRecord IS created and finalized for b with ranSuccessfully = false, so
b renders as Failure — not as not-attempted — while every file of B
renders NA. -/
theorem claim_C4_unknown_extension_amended (s : RS.RSState) (out : Outcomes)
    (A : List String) (b : String) (B : List String)
    (hfiles : s.files = A ++ b :: B) (hinfo : s.info = []) (hnd : s.files.Nodup)
    (hok : ∀ f ∈ A, (RS.run_file s.extensions out (s.directory ++ f)).2 = none)
    (hbad : dictGet? s.extensions (splitext_ext (s.directory ++ b)) = none) :
    (RS.run_files s out).spawned =
        A.flatMap (fun f => (RS.run_file s.extensions out (s.directory ++ f)).1)
      ∧ (RS.run_files s out).err =
          some (PyErr.keyError (splitext_ext (s.directory ++ b)))
      ∧ (dictGet? (RS.run_files s out).info b).map RS.RunRecord.ran = some false
      ∧ ((RS.run s out).1).map RS.rowStat =
          A.map (fun _ => ("Success", true, true, true))
            ++ ("Failure", true, true, true)
            :: B.map (fun _ => ("NA", false, false, false)) := by
  have hnd' := hfiles ▸ hnd
  have hdisj : A.Disjoint (b :: B) := (List.nodup_append.mp hnd').2.2
  have hbB : b ∉ B := (List.nodup_cons.mp (List.nodup_append.mp hnd').2.1).1
  have hb2 : (RS.run_file s.extensions out (s.directory ++ b)).2 =
      some (PyErr.keyError (splitext_ext (s.directory ++ b))) := by
    rw [RS.run_file, hbad]
  have hb1 : (RS.run_file s.extensions out (s.directory ++ b)).1 = [] := by
    rw [RS.run_file, hbad]
  obtain ⟨hmem, hbrec, hrest⟩ :=
    RS.final_info_char s out A b B (PyErr.keyError (splitext_ext (s.directory ++ b)))
      hfiles hnd hinfo hok hb2
  refine ⟨?_, ?_, ?_, ?_⟩
  · rw [RS.run_files_char_err s out A b B _ hfiles hok hb2, hb1]
    simp
  · rw [RS.run_files_char_err s out A b B _ hfiles hok hb2]
  · rw [hbrec]
    rfl
  · show (RS.format_file_data s.files (RS.run_files s out).info).map RS.rowStat = _
    rw [RS.format_map_rowStat, hfiles, List.map_append, List.map_cons]
    congr 1
    · refine List.map_congr_left (fun f hf => ?_)
      obtain ⟨c, hc⟩ := hmem f hf
      rw [hc, RS.rowStat_some]
      rfl
    · congr 1
      · rw [hbrec, RS.rowStat_some]
        rfl
      · refine List.map_congr_left (fun g hg => ?_)
        have hgb : g ≠ b := fun h => hbB (h ▸ hg)
        have hgA : g ∉ A := fun h => hdisj h (List.mem_cons_of_mem b hg)
        rw [hrest g hgA hgb, RS.rowStat_none]

/-- Witness for the amended C4 at a concrete one-file run. -/
theorem claim_C4_unknown_extension_witness :
    (RS.run_files sXyz outExit0).spawned = []
      ∧ (dictGet? (RS.run_files sXyz outExit0).info "1-a.xyz").map RS.RunRecord.ran
          = some false := by
  have h := claim_C4_unknown_extension_amended sXyz outExit0 [] "1-a.xyz" []
    rfl rfl (by decide) (fun f hf => absurd hf (List.not_mem_nil f)) rfl
  exact ⟨h.1.trans rfl, h.2.2.1⟩

/-- C5: RunningShoes does finalize the in-flight record (end time and
elapsed set, ran = false) before re-raising, and run() produces the
report alongside the propagated error — but PrefixRun.run_files, which
the claim also names, swallows the invocation exception entirely (its
run_files returns normally) and writes no record data at all (its
bookkeeping statement is commented out), leaving every file_data row at
its initial NA/No values.  The claim is right about the intended design
and PrefixRun.run_files is the slip. -/
theorem claim_C5_finalize_and_propagate :
    ((RS.run_files sFail2 outFail2).err = some PyErr.spawnRaised
      ∧ (dictGet? (RS.run_files sFail2 outFail2).info "2-b.py").map
          (fun r => (r.ran, r.end_time.isSome, r.elapsed.isSome)) = some (false, true, true)
      ∧ ((RS.run sFail2 outFail2).1).map RS.Row.status = ["Success", "Failure", "NA"])
    ∧ ((PR.run_files pFail outRaiseAll).err = none
      ∧ (PR.run_files pFail outRaiseAll).file_data = pFail.file_data
      ∧ (PR.run_files pFail outRaiseAll).spawned = [["python", "1-a.py"]]) :=
  ⟨⟨rfl, rfl, rfl⟩, ⟨rfl, rfl, rfl⟩⟩

/-- Lookup through the foldl of dict updates that __init__ performs: the
last custom entry for a key wins, and keys with no custom entry fall
through to the initial dict. -/
theorem dictGet?_foldl_dictSet {α : Type} (custom : List (String × α))
    (d : List (String × α)) (k : String) :
    dictGet? (custom.foldl (fun d kv => dictSet d kv.1 kv.2) d) k =
      (custom.reverse.find? (fun kv => kv.1 = k)).elim (dictGet? d k)
        (fun kv => some kv.2) := by
  induction custom generalizing d with
  | nil => rfl
  | cons c cs ih =>
    rw [List.foldl_cons, ih, List.reverse_cons, List.find?_append]
    cases h : cs.reverse.find? (fun kv => kv.1 = k) with
    | some kv => rfl
    | none =>
      rw [Option.none_or, dictGet?_dictSet]
      by_cases hck : c.1 = k
      · subst hck
        simp [List.find?_cons]
      · have hkc : ¬ k = c.1 := fun hh => hck hh.symm
        simp [List.find?_cons, hck, hkc]

/-- C6: for every custom_extensions mapping, the merged map __init__
builds resolves each key to the user's entry when one exists (the last
one, matching CPython dict iteration of unique keys) and to the fixed
default otherwise; in particular overriding .sh with zsh replaces only
that entry and leaves the other four defaults in place. -/
theorem claim_C6_extension_merge :
    (∀ (custom : List (String × List String)) (k : String),
        dictGet? (RS.mergeExtensions custom) k =
          (custom.reverse.find? (fun kv => kv.1 = k)).elim
            (dictGet? RS.default_extensions k) (fun kv => some kv.2))
      ∧ RS.mergeExtensions [(".sh", ["zsh"])] =
          [(".hql", ["hive", "-f"]), (".py", ["python"]), (".R", ["Rscript"]),
           (".scala", ["scala"]), (".sh", ["zsh"])] :=
  ⟨fun custom k => dictGet?_foldl_dictSet custom RS.default_extensions k, rfl⟩

/-- C7: whenever the spawn-and-wait oracle returns an exit status for
every file — the status value being arbitrary, so in particular nonzero —
run_files finishes with no error, spawns every file's command, and marks
every record ranSuccessfully = true; and whenever the prefix A succeeds
but the invocation of b raises, b's record is marked
ranSuccessfully = false.  A nonzero child exit status alone never fails
or halts anything. -/
theorem claim_C7_nonzero_exit_is_success :
    (∀ (s : RS.RSState) (out : Outcomes),
        s.info = [] → s.files.Nodup →
        (∀ f ∈ s.files, ∃ cmd code,
            dictGet? s.extensions (splitext_ext (s.directory ++ f)) = some cmd
              ∧ out (cmd ++ [s.directory ++ f]) = SpawnResult.exit code) →
        (RS.run_files s out).err = none
          ∧ (RS.run_files s out).spawned =
              s.files.flatMap (fun f => (RS.run_file s.extensions out (s.directory ++ f)).1)
          ∧ ∀ f ∈ s.files,
              (dictGet? (RS.run_files s out).info f).map RS.RunRecord.ran = some true)
      ∧ (∀ (s : RS.RSState) (out : Outcomes) (A : List String) (b : String)
          (B : List String) (e : PyErr),
          s.files = A ++ b :: B → s.info = [] → s.files.Nodup →
          (∀ f ∈ A, (RS.run_file s.extensions out (s.directory ++ f)).2 = none) →
          (RS.run_file s.extensions out (s.directory ++ b)).2 = some e →
          (dictGet? (RS.run_files s out).info b).map RS.RunRecord.ran = some false) := by
  constructor
  · intro s out hinfo hnd hexit
    have hok : ∀ f ∈ s.files, (RS.run_file s.extensions out (s.directory ++ f)).2 = none := by
      intro f hf
      obtain ⟨cmd, code, hcmd, hcode⟩ := hexit f hf
      simp only [RS.run_file, hcmd, hcode]
    obtain ⟨hmem, -⟩ := RS.final_info_char_ok s out hnd hinfo hok
    refine ⟨?_, ?_, ?_⟩
    · rw [RS.run_files_char_ok s out hok]
    · rw [RS.run_files_char_ok s out hok]
    · intro f hf
      obtain ⟨c, hc⟩ := hmem f hf
      rw [hc]
      rfl
  · intro s out A b B e hfiles hinfo hnd hok hbad
    obtain ⟨-, hbrec, -⟩ := RS.final_info_char s out A b B e hfiles hnd hinfo hok hbad
    rw [hbrec]
    rfl

/-- Witness for C7 at a concrete two-file run in which every child exits
with the nonzero status 1: the run completes and both records read
ranSuccessfully = true. -/
theorem claim_C7_nonzero_exit_witness :
    (RS.run_files sTwo outExit1).err = none
      ∧ (dictGet? (RS.run_files sTwo outExit1).info "1-a.py").map RS.RunRecord.ran
          = some true
      ∧ (dictGet? (RS.run_files sTwo outExit1).info "2-b.sh").map RS.RunRecord.ran
          = some true := by
  have h := claim_C7_nonzero_exit_is_success.1 sTwo outExit1 rfl (by decide)
    (by
      intro f hf
      rcases List.mem_cons.mp hf with rfl | hf
      · exact ⟨["python"], 1, rfl, rfl⟩
      · rcases List.mem_cons.mp hf with rfl | hf
        · exact ⟨["bash"], 1, rfl, rfl⟩
        · exact absurd hf (List.not_mem_nil f))
  exact ⟨h.1, h.2.2 "1-a.py" (by decide), h.2.2 "2-b.sh" (by decide)⟩

/-- C8: a second call to run() on the same RunningShoes re-scans nothing
(the file list is exactly the one fixed at construction), starts again
from the first file, and — provided the second pass completes — leaves
record state and spawn trace identical to those of a single fresh run
performed at the same point of the modelled clock: every prior record is
overwritten and nothing of the first, possibly failed, run survives. -/
theorem claim_C8_rerun_is_fresh (s : RS.RSState) (out1 out2 : Outcomes)
    (hinfo : s.info = []) (hnd : s.files.Nodup)
    (h2 : ∀ f ∈ s.files, (RS.run_file s.extensions out2 (s.directory ++ f)).2 = none) :
    (RS.stepState s (RS.run_files s out1)).files = s.files
      ∧ (RS.run_files (RS.stepState s (RS.run_files s out1)) out2).err = none
      ∧ (RS.run_files (RS.stepState s (RS.run_files s out1)) out2).spawned =
          (RS.run_files ⟨s.directory, s.files, s.extensions, [],
            (RS.run_files s out1).clock⟩ out2).spawned
      ∧ ∀ g, dictGet? (RS.run_files (RS.stepState s (RS.run_files s out1)) out2).info g =
          dictGet? (RS.run_files ⟨s.directory, s.files, s.extensions, [],
            (RS.run_files s out1).clock⟩ out2).info g := by
  have hchar1 := RS.run_files_char_ok (RS.stepState s (RS.run_files s out1)) out2 h2
  have hchar2 := RS.run_files_char_ok
    ⟨s.directory, s.files, s.extensions, [], (RS.run_files s out1).clock⟩ out2 h2
  refine ⟨rfl, ?_, ?_, ?_⟩
  · rw [hchar1]
  · rw [hchar1, hchar2]
    rfl
  · intro g
    rw [hchar1, hchar2]
    by_cases hg : g ∈ s.files
    · obtain ⟨A1, A2, hA⟩ := List.append_of_mem hg
      have hgA2 : g ∉ A2 := by
        have : (g :: A2).Nodup := (List.nodup_append.mp (hA ▸ hnd)).2.1
        exact (List.nodup_cons.mp this).1
      show dictGet? (RS.addRecords (RS.run_files s out1).info
          (RS.run_files s out1).clock s.files) g = _
      rw [hA, RS.dictGet?_addRecords_mem _ _ A1 A2 g hgA2,
          RS.dictGet?_addRecords_mem _ _ A1 A2 g hgA2]
    · show dictGet? (RS.addRecords (RS.run_files s out1).info
          (RS.run_files s out1).clock s.files) g = _
      rw [RS.dictGet?_addRecords_notMem _ _ _ _ hg,
          RS.dictGet?_addRecords_notMem _ _ _ _ hg]
      show dictGet? (RS.run_files s out1).info g = dictGet? ([] : List (String × RS.RunRecord)) g
      rw [RS.run_files, RS.run_files_go_info_notMem _ _ _ _ _ _ _ _ hg, hinfo]

/-- Witness for C8: the first run fails on its second file, the second
run completes; the re-run's outcome and its record for the previously
not-attempted third file agree with those of a fresh single run. -/
theorem claim_C8_rerun_witness :
    (RS.run_files (RS.stepState sFail2 (RS.run_files sFail2 outFail2)) outExit0).err = none
      ∧ dictGet? (RS.run_files (RS.stepState sFail2 (RS.run_files sFail2 outFail2))
            outExit0).info "3-c.sh" =
          dictGet? (RS.run_files ⟨sFail2.directory, sFail2.files, sFail2.extensions, [],
            (RS.run_files sFail2 outFail2).clock⟩ outExit0).info "3-c.sh" := by
  have h := claim_C8_rerun_is_fresh sFail2 outFail2 outExit0 rfl (by decide)
    (by
      intro f hf
      rcases List.mem_cons.mp hf with rfl | hf
      · rfl
      · rcases List.mem_cons.mp hf with rfl | hf
        · rfl
        · rcases List.mem_cons.mp hf with rfl | hf
          · rfl
          · exact absurd hf (List.not_mem_nil f))
  exact ⟨h.2.1, h.2.2.2 "3-c.sh"⟩

/-- C9, counterexample: ensure_trailing_slash leaves tmp// unchanged, so
the stored path ends in two separators, not exactly one as the claim
states; and PrefixRun, which the claim also covers through its __init__,
stores the directory with no normalization at all (data without any
trailing slash stays data). -/
theorem claim_C9_trailing_slash_cex :
    RS.ensure_trailing_slash "tmp//" = "tmp//"
      ∧ "tmp//".data.reverse.take 2 = ['/', '/']
      ∧ (PR.mkPrefixRun "data" []).directory = "data" :=
  ⟨rfl, rfl, rfl⟩

/-- C9 as amended: for nonempty directories, RunningShoes appends exactly
one slash when the last character is not a slash and stores the string
unchanged when it is — so the stored path always ends in at least one
slash, but pre-existing repeated trailing slashes are preserved, not
collapsed.  (PrefixRun performs no normalization; see the
counterexample.) -/
theorem claim_C9_trailing_slash_amended (d : String) (_hne : d ≠ "") :
    (RS.ensure_trailing_slash d).data.getLast? = some '/'
      ∧ (d.data.getLast? = some '/' → RS.ensure_trailing_slash d = d)
      ∧ (d.data.getLast? ≠ some '/' → RS.ensure_trailing_slash d = d ++ "/") := by
  by_cases h : d.data.getLast? = some '/'
  · refine ⟨?_, fun _ => ?_, fun hc => absurd h hc⟩
    · rw [RS.ensure_trailing_slash, if_neg (not_not_intro h)]
      exact h
    · rw [RS.ensure_trailing_slash, if_neg (not_not_intro h)]
  · refine ⟨?_, fun hc => absurd hc h, fun _ => ?_⟩
    · rw [RS.ensure_trailing_slash, if_pos h, String.data_append,
          show ("/" : String).data = ['/'] from rfl, List.getLast?_concat]
    · rw [RS.ensure_trailing_slash, if_pos h]

/-- Witness for the amended C9 at a concrete directory without a
trailing slash. -/
theorem claim_C9_trailing_slash_witness :
    RS.ensure_trailing_slash "tmp" = "tmp" ++ "/" :=
  (claim_C9_trailing_slash_amended "tmp" (by decide)).2.2 (by decide)

/-- C10: the Order column of the report is the 1-based position of the
file in the discovered sequence — the i-th row always carries order i —
and not the parsed integer of the file name: in the concrete report over
1-c.py, 2-b.py, 10-a.sh the orders read 1, 2, 3 although the third file's
parsed integer is 10. -/
theorem claim_C10_order_column :
    (∀ (files : List String) (info : List (String × RS.RunRecord)),
        (RS.format_file_data files info).map RS.Row.order = List.range' 1 files.length)
      ∧ (RS.format_file_data ["1-c.py", "2-b.py", "10-a.sh"] []).map RS.Row.order = [1, 2, 3]
      ∧ RS.should_we_run_this_file "10-a.sh" = some 10 := by
  refine ⟨fun files info => RS.format_map_order info files, ?_, rfl⟩
  rw [RS.format_map_order]
  rfl
